import Mathlib

/-! VideoByte bidder adapter: a shallow embedding and its properties.

Embedding of `adapters/videobyte/videobyte.go`.

* Go `string` values are Lean `String`s; `[]byte` values holding JSON text
  (`json.RawMessage`, request and response bodies) are `String`s as well.
* Go maps (`url.Values`, `http.Header`, the `impIdToImp` lookup) are association
  lists with at most one entry per key; storing to an existing key replaces its
  value in place, storing to a new key adds an entry.
* `encoding/json` is not part of the adapter: its four uses are the fields of
  `JSON`, each returning either a value or the text of the error.
* The pointer arguments of the adapter are passed by value; `MakeRequests`
  returns the final state of the request it was given next to its results.
-/

namespace VideoByte

/-! ## Go maps with string keys -/

/-- Value stored under `key`, if any (`v, ok := m[key]`). -/
def mapLookup {α : Type} : List (String × α) → String → Option α
  | [], _ => none
  | (k, v) :: rest, key => if k = key then some v else mapLookup rest key

/-- Store `value` under `key` (`m[key] = value`). -/
def mapStore {α : Type} : List (String × α) → String → α → List (String × α)
  | [], key, value => [(key, value)]
  | (k, v) :: rest, key, value =>
    if k = key then (key, value) :: rest else (k, v) :: mapStore rest key value

/-- Keys of the map. -/
def mapKeys {α : Type} (m : List (String × α)) : List String :=
  m.map Prod.fst

/-! ## Go strings as byte sequences -/

/-- UTF-8 bytes of one character. -/
def utf8Bytes (c : Char) : List Nat :=
  let v := c.toNat
  if v < 0x80 then [v]
  else if v < 0x800 then [0xC0 + v / 64, 0x80 + v % 64]
  else if v < 0x10000 then [0xE0 + v / 4096, 0x80 + (v / 64) % 64, 0x80 + v % 64]
  else [0xF0 + v / 262144, 0x80 + (v / 4096) % 64, 0x80 + (v / 64) % 64, 0x80 + v % 64]

/-- Bytes of a Go string. -/
def stringBytes (s : String) : List Nat :=
  s.data.flatMap utf8Bytes

/-- Lexicographic order on byte sequences. -/
def bytesLess : List Nat → List Nat → Bool
  | _, [] => false
  | [], _ :: _ => true
  | a :: as, b :: bs => if a < b then true else if b < a then false else bytesLess as bs

/-- Go's `<` on strings: bytewise lexicographic. -/
def stringLess (a b : String) : Bool :=
  bytesLess (stringBytes a) (stringBytes b)

/-- Insert a string into an ascending list. -/
def insertString (s : String) : List String → List String
  | [] => [s]
  | t :: rest => if stringLess t s then t :: insertString s rest else s :: t :: rest

/-- The function `sort.Strings`: the strings in ascending order. -/
def sortStrings (l : List String) : List String :=
  l.foldr insertString []

/-! ## net/url -/

/-- The type `url.Values`, a `map[string][]string`. -/
abbrev Values := List (String × List String)

/-- Values stored under `key`; an absent key reads as the nil slice. -/
def Values.get (v : Values) (key : String) : List String :=
  (mapLookup v key).getD []

/-- The method `Values.Add`: `v[key] = append(v[key], value)`. -/
def Values.Add (v : Values) (key value : String) : Values :=
  mapStore v key (Values.get v key ++ [value])

/-- The function `shouldEscape` of net/url in mode `encodeQueryComponent`, on a
character below 0x80: only letters, digits and `-`, `_`, `.`, `~` stay. -/
def unreserved (c : Char) : Bool :=
  c.isAlphanum || c = '-' || c = '_' || c = '.' || c = '~'

/-- Upper-case hexadecimal digit. -/
def upperhex (n : Nat) : Char :=
  "0123456789ABCDEF".data.getD n '0'

/-- Escaped form of one character of a query component. -/
def escapeChar (c : Char) : List Char :=
  if unreserved c then [c]
  else if c = ' ' then ['+']
  else (utf8Bytes c).flatMap fun b => ['%', upperhex (b / 16), upperhex (b % 16)]

/-- The function `url.QueryEscape`. -/
def QueryEscape (s : String) : String :=
  String.mk (s.data.flatMap escapeChar)

/-- One step of the inner loop of `Values.Encode`: write `key=value` to the
buffer, after a `&` when the buffer is not empty. -/
def encodePair (keyEscaped : String) (buf : String) (value : String) : String :=
  (if buf.length > 0 then buf ++ "&" else buf) ++ keyEscaped ++ "=" ++ QueryEscape value

/-- The method `Values.Encode`: the keys are sorted, then every value of every
key is written as `key=value`, escaped, joined with `&`. -/
def Values.Encode (v : Values) : String :=
  (sortStrings (mapKeys v)).foldl
    (fun buf k => (Values.get v k).foldl (encodePair (QueryEscape k)) buf) ""

/-! ## net/http headers -/

/-- The type `http.Header`, a `map[string][]string`. -/
abbrev Header := List (String × List String)

/-- Token characters of a header field name. -/
def validHeaderFieldByte (c : Char) : Bool :=
  c.isAlphanum || [33, 35, 36, 37, 38, 39, 42, 43, 45, 46, 94, 95, 96, 124, 126].contains c.toNat

/-- Inner loop of `canonicalMIMEHeaderKey`: first letter and every letter after
a dash in upper case, the others in lower case. -/
def canonicalLoop : Bool → List Char → List Char
  | _, [] => []
  | upper, c :: rest =>
    let c1 := if upper && c.isLower then c.toUpper
              else if !upper && c.isUpper then c.toLower else c
    c1 :: canonicalLoop (c1 = '-') rest

/-- The function `textproto.CanonicalMIMEHeaderKey`: a key holding a character
that is not a token character is returned unchanged. -/
def CanonicalMIMEHeaderKey (s : String) : String :=
  if s.data.all validHeaderFieldByte then String.mk (canonicalLoop true s.data) else s

/-- Values stored under `key`; an absent key reads as the nil slice. -/
def Header.values (h : Header) (key : String) : List String :=
  (mapLookup h key).getD []

/-- The method `Header.Add`: append to the values of the canonical key. -/
def Header.Add (h : Header) (key value : String) : Header :=
  let k := CanonicalMIMEHeaderKey key
  mapStore h k (Header.values h k ++ [value])

/-- The method `Header.Set`: replace the values of the canonical key. -/
def Header.Set (h : Header) (key value : String) : Header :=
  mapStore h (CanonicalMIMEHeaderKey key) [value]

/-! ## Data model -/

/-- The type `json.RawMessage`: JSON text kept undecoded. -/
abbrev RawMessage := String

/-- Banner descriptor of an impression (`openrtb2.Banner`). -/
structure Banner where
  W : Option Int
  H : Option Int
  Ext : RawMessage
deriving DecidableEq, Repr

/-- Video descriptor of an impression (`openrtb2.Video`). -/
structure Video where
  MIMEs : List String
  Ext : RawMessage
deriving DecidableEq, Repr

/-- One impression (`openrtb2.Imp`). -/
structure Imp where
  ID : String
  Banner : Option Banner
  Video : Option Video
  Ext : RawMessage
deriving DecidableEq, Repr

/-- Site context (`openrtb2.Site`). -/
structure Site where
  Domain : String
  Ref : String
  Page : String
deriving DecidableEq, Repr

/-- The bid request (`openrtb2.BidRequest`). -/
structure BidRequest where
  ID : String
  Imp : List Imp
  Site : Option Site
  Ext : RawMessage
deriving DecidableEq, Repr

/-- The bidder wrapper of an impression extension (`adapters.ExtImpBidder`);
only its `Bidder` field is read. -/
structure ExtImpBidder where
  Bidder : RawMessage
deriving DecidableEq, Repr

/-- The adapter-specific extension (`openrtb_ext.ExtImpVideoByte`). -/
structure ExtImpVideoByte where
  PublisherId : String
  PlacementId : String
  NetworkId : String
deriving DecidableEq, Repr

/-- Errors returned by the adapter: the two `errortypes` it builds, and an error
of `encoding/json` passed on as it is. -/
inductive AdapterError where
  | BadInput (Message : String)
  | BadServerResponse (Message : String)
  | Json (Message : String)
deriving DecidableEq, Repr

/-- One outbound request (`adapters.RequestData`). -/
structure RequestData where
  Method : String
  Uri : String
  Body : String
  Headers : Header
deriving DecidableEq, Repr

/-- The HTTP response of the exchange (`adapters.ResponseData`). -/
structure ResponseData where
  StatusCode : Int
  Body : String
  Headers : Header
deriving DecidableEq, Repr

/-- One bid (`openrtb2.Bid`). -/
structure Bid where
  ID : String
  ImpID : String
  AdM : String
  CrID : String
  W : Int
  H : Int
deriving DecidableEq, Repr

/-- One seat-bid group (`openrtb2.SeatBid`). -/
structure SeatBid where
  Bid : List Bid
  Seat : String
deriving DecidableEq, Repr

/-- The bid response of the exchange (`openrtb2.BidResponse`). -/
structure BidResponse where
  ID : String
  SeatBid : List SeatBid
  Cur : String
deriving DecidableEq, Repr

/-- Media type of a bid (`openrtb_ext.BidType`). -/
inductive BidType where
  | BidTypeBanner
  | BidTypeVideo
  | BidTypeAudio
  | BidTypeNative
deriving DecidableEq, Repr

/-- A bid with its media type (`adapters.TypedBid`). -/
structure TypedBid where
  Bid : Bid
  BidType : BidType
deriving DecidableEq, Repr

/-- The normalized response (`adapters.BidderResponse`). -/
structure BidderResponse where
  Currency : String
  Bids : List TypedBid
deriving DecidableEq, Repr

/-- The uses of `encoding/json` in the adapter: `json.Unmarshal` into an
`ExtImpBidder`, into an `ExtImpVideoByte` and into a `BidResponse`, and
`json.Marshal` of a `BidRequest`. Each returns the value or the error text. -/
structure JSON where
  unmarshalExtImpBidder : RawMessage → Except String ExtImpBidder
  unmarshalExtImpVideoByte : RawMessage → Except String ExtImpVideoByte
  marshalBidRequest : BidRequest → Except String String
  unmarshalBidResponse : String → Except String BidResponse

/-- The adapter, holding the configured endpoint. -/
structure VideoByteAdapter where
  endpoint : String
deriving DecidableEq, Repr

/-- The constant `http.MethodPost`. -/
def MethodPost : String := "POST"

/-- The constant `http.StatusOK`. -/
def StatusOK : Int := 200

/-- The constant `http.StatusNoContent`. -/
def StatusNoContent : Int := 204

/-- The constant `http.StatusBadRequest`. -/
def StatusBadRequest : Int := 400

/-- The verb `%d` of `fmt.Sprintf` on an `int`: the decimal digits, after a
minus sign when negative. -/
def formatInt (n : Int) : String :=
  toString n

/-- Modelled from the spec: `adapters.NewBidderResponseWithBidsCapacity` is not
in the source. It returns a response container with no bid, pre-sized to the
given capacity; the currency it starts with is left as a parameter. -/
def NewBidderResponseWithBidsCapacity (currency : String) (_capacity : Nat) : BidderResponse :=
  { Currency := currency, Bids := [] }

/-! ## The adapter -/

/-- Decode the extension of an impression: first the bidder wrapper, then the
adapter-specific extension inside it. -/
def parseExt (js : JSON) (imp : Imp) : Except AdapterError ExtImpVideoByte :=
  match js.unmarshalExtImpBidder imp.Ext with
  | .error err =>
    .error (.BadInput ("Ignoring imp id=" ++ imp.ID ++
      ", error while decoding extImpBidder, err: " ++ err))
  | .ok bidderExt =>
    match js.unmarshalExtImpVideoByte bidderExt.Bidder with
    | .error err =>
      .error (.BadInput ("Ignoring imp id=" ++ imp.ID ++
        ", error while decoding impExt, err: " ++ err))
    | .ok impExt => .ok impExt

/-- Query parameters of the endpoint for one impression. -/
def getParams (impExt : ExtImpVideoByte) : Values :=
  let params : Values := []
  let params := Values.Add params "source" "pbs"
  let params := Values.Add params "pid" impExt.PublisherId
  let params := if impExt.PlacementId ≠ "" then
    Values.Add params "placementId" impExt.PlacementId else params
  let params := if impExt.NetworkId ≠ "" then
    Values.Add params "nid" impExt.NetworkId else params
  params

/-- Headers of an outbound request. -/
def getHeaders (request : BidRequest) : Header :=
  let headers : Header := []
  let headers := Header.Add headers "Content-Type" "application/json;charset=utf-8"
  let headers := Header.Add headers "Accept" "application/json"
  match request.Site with
  | some site =>
    let headers := if site.Domain ≠ "" then Header.Add headers "Origin" site.Domain else headers
    let headers := if site.Ref ≠ "" then Header.Set headers "Referer" site.Ref else headers
    headers
  | none => headers

/-- Variables of the loop of `MakeRequests`: the request (its impression list is
overwritten in the loop) and the two result slices. -/
structure LoopState where
  request : BidRequest
  adapterRequests : List RequestData
  errs : List AdapterError
deriving DecidableEq, Repr

/-- Body of the loop of `MakeRequests` for one impression. -/
def makeRequestsStep (js : JSON) (a : VideoByteAdapter) (st : LoopState)
    (impression : Imp) : LoopState :=
  match parseExt js impression with
  | .error err => { st with errs := st.errs ++ [err] }
  | .ok impExt =>
    let request := { st.request with Imp := [impression] }
    match js.marshalBidRequest request with
    | .error err =>
      { request := request, adapterRequests := st.adapterRequests,
        errs := st.errs ++ [.Json err] }
    | .ok body =>
      { request := request,
        adapterRequests := st.adapterRequests ++
          [{ Method := MethodPost,
             Uri := a.endpoint ++ "?" ++ Values.Encode (getParams impExt),
             Body := body,
             Headers := getHeaders request }],
        errs := st.errs }

/-- Result of `MakeRequests`: the outbound requests, the errors, and the request
as the call leaves it. -/
structure MakeRequestsResult where
  adapterRequests : List RequestData
  errs : List AdapterError
  request : BidRequest
deriving DecidableEq, Repr

/-- The method `MakeRequests`: one outbound request per impression that can be
processed, one error per impression that cannot. -/
def MakeRequests (js : JSON) (a : VideoByteAdapter) (request : BidRequest) :
    MakeRequestsResult :=
  let impressions := request.Imp
  let st := impressions.foldl (makeRequestsStep js a)
    { request := request, adapterRequests := [], errs := [] }
  { adapterRequests := st.adapterRequests,
    errs := st.errs,
    request := { st.request with Imp := impressions } }

/-- Media type of a bid from the impression it was matched to. -/
def getMediaTypeForImp (imp : Option Imp) : BidType :=
  match imp with
  | some i => if i.Banner.isSome then .BidTypeBanner else .BidTypeVideo
  | none => .BidTypeVideo

/-- First loop of `MakeBids`: the lookup from impression identifier to impression. -/
def buildImpIdToImp (imps : List Imp) : List (String × Imp) :=
  imps.foldl (fun m imp => mapStore m imp.ID imp) []

/-- Second loop of `MakeBids`: append one typed bid per bid of every seat-bid group. -/
def collectBids (impIdToImp : List (String × Imp)) (seatBids : List SeatBid)
    (bidderResponse : BidderResponse) : BidderResponse :=
  seatBids.foldl (fun resp seatBid =>
    seatBid.Bid.foldl (fun resp bid =>
      { resp with Bids := resp.Bids ++
          [{ Bid := bid, BidType := getMediaTypeForImp (mapLookup impIdToImp bid.ImpID) }] })
      resp) bidderResponse

/-- The method `MakeBids`: classify the response by status code, decode it, and
type every bid. -/
def MakeBids (js : JSON) (currency : String) (internalRequest : BidRequest)
    (_externalRequest : RequestData) (response : ResponseData) :
    Option BidderResponse × List AdapterError :=
  if response.StatusCode = StatusNoContent then (none, [])
  else if response.StatusCode = StatusBadRequest then
    (none, [.BadInput ("Bad user input: HTTP status " ++ formatInt response.StatusCode ++
      ". Run with request.debug = 1 for more info")])
  else if response.StatusCode ≠ StatusOK then
    (none, [.BadServerResponse ("Unexpected status code: " ++ formatInt response.StatusCode ++
      ". Run with request.debug = 1 for more info")])
  else
    match js.unmarshalBidResponse response.Body with
    | .error _ => (none, [.BadServerResponse "Bad Server Response"])
    | .ok ortbResponse =>
      let impIdToImp := buildImpIdToImp internalRequest.Imp
      let bidderResponse := NewBidderResponseWithBidsCapacity currency 1
      (some (collectBids impIdToImp ortbResponse.SeatBid bidderResponse), [])

/-! ## Notions used to state the properties -/

/-- The extension of the impression decodes: both the bidder wrapper and the
adapter-specific extension inside it. -/
def extDecodes (js : JSON) (imp : Imp) : Bool :=
  match js.unmarshalExtImpBidder imp.Ext with
  | .error _ => false
  | .ok bidderExt =>
    match js.unmarshalExtImpVideoByte bidderExt.Bidder with
    | .error _ => false
    | .ok _ => true

/-- The request with its impression list replaced by the single impression. -/
def singleImpRequest (request : BidRequest) (imp : Imp) : BidRequest :=
  { request with Imp := [imp] }

/-- The single-impression request of the impression serialises. -/
def serialises (js : JSON) (request : BidRequest) (imp : Imp) : Bool :=
  match js.marshalBidRequest (singleImpRequest request imp) with
  | .error _ => false
  | .ok _ => true

/-- The impression is processed: its extension decodes and its
single-impression request serialises. -/
def processed (js : JSON) (request : BidRequest) (imp : Imp) : Bool :=
  extDecodes js imp && serialises js request imp

/-- What one impression of `request` yields, on its own: the outbound request,
or the error. -/
def processImp (js : JSON) (a : VideoByteAdapter) (request : BidRequest) (imp : Imp) :
    Except AdapterError RequestData :=
  match parseExt js imp with
  | .error err => .error err
  | .ok impExt =>
    match js.marshalBidRequest (singleImpRequest request imp) with
    | .error err => .error (.Json err)
    | .ok body =>
      .ok { Method := MethodPost,
            Uri := a.endpoint ++ "?" ++ Values.Encode (getParams impExt),
            Body := body,
            Headers := getHeaders (singleImpRequest request imp) }

/-- The value of a result, if it is one. -/
def okPart {ε α : Type} : Except ε α → Option α
  | .ok v => some v
  | .error _ => none

/-- The error of a result, if it is one. -/
def errPart {ε α : Type} : Except ε α → Option ε
  | .ok _ => none
  | .error e => some e

/-! ## Concrete inputs for the examples -/

/-- Extension `{"bidder":{"pubId":"p"}}`. -/
def demoExtP : RawMessage := "\x7b\"bidder\":\x7b\"pubId\":\"p\"\x7d\x7d"

/-- Extension `{"bidder":{"pubId":"a b","placementId":"q","nid":"n"}}`. -/
def demoExtAB : RawMessage :=
  "\x7b\"bidder\":\x7b\"pubId\":\"a b\",\"placementId\":\"q\",\"nid\":\"n\"\x7d\x7d"

/-- Extension `{"bidder":5}`: the wrapper decodes, the adapter-specific part does not. -/
def demoExtFive : RawMessage := "\x7b\"bidder\":5\x7d"

/-- Decoding of the bidder wrapper on the texts of the examples; the empty text
is no JSON. -/
def demoUnmarshalExtImpBidder (raw : RawMessage) : Except String ExtImpBidder :=
  if raw = demoExtP then .ok ⟨"\x7b\"pubId\":\"p\"\x7d"⟩
  else if raw = demoExtAB then
    .ok ⟨"\x7b\"pubId\":\"a b\",\"placementId\":\"q\",\"nid\":\"n\"\x7d"⟩
  else if raw = demoExtFive then .ok ⟨"5"⟩
  else .error "unexpected end of JSON input"

/-- Decoding of the adapter-specific extension on the texts of the examples. -/
def demoUnmarshalExtImpVideoByte (raw : RawMessage) : Except String ExtImpVideoByte :=
  if raw = "\x7b\"pubId\":\"p\"\x7d" then .ok ⟨"p", "", ""⟩
  else if raw = "\x7b\"pubId\":\"a b\",\"placementId\":\"q\",\"nid\":\"n\"\x7d" then
    .ok ⟨"a b", "q", "n"⟩
  else .error "json: cannot unmarshal number into Go value of type openrtb_ext.ExtImpVideoByte"

/-- JSON text of an impression that has an identifier and an extension only. -/
def demoRenderImp (imp : Imp) : String :=
  "\x7b\"id\":\"" ++ imp.ID ++ "\",\"ext\":" ++ imp.Ext ++ "\x7d"

/-- Serialisation of the requests of the examples: a banner whose raw extension
is the text `{`, which is no JSON, makes `json.Marshal` fail; the other requests
of the examples hold an identifier and impressions with identifier and
extension only. -/
def demoMarshalBidRequest (r : BidRequest) : Except String String :=
  if r.Imp.any (fun imp => imp.Banner.any (fun b => b.Ext = "\x7b")) then
    .error "json: error calling MarshalJSON for type json.RawMessage: unexpected end of JSON input"
  else
    .ok ("\x7b\"id\":\"" ++ r.ID ++ "\",\"imp\":[" ++
      ",".intercalate (r.Imp.map demoRenderImp) ++ "]\x7d")

/-- Response body `{"id":"r","seatbid":[{"bid":[{"id":"b1","impid":"1"},{"id":"b2","impid":"2"}]},{"bid":[{"id":"b3","impid":"9"}]}]}`. -/
def demoResponseBody : String :=
  "\x7b\"id\":\"r\",\"seatbid\":[\x7b\"bid\":[\x7b\"id\":\"b1\",\"impid\":\"1\"\x7d," ++
    "\x7b\"id\":\"b2\",\"impid\":\"2\"\x7d]\x7d,\x7b\"bid\":[\x7b\"id\":\"b3\",\"impid\":\"9\"\x7d]\x7d]\x7d"

/-- The bid response that `demoResponseBody` decodes to. -/
def demoBidResponse : BidResponse :=
  { ID := "r",
    SeatBid := [{ Bid := [⟨"b1", "1", "", "", 0, 0⟩, ⟨"b2", "2", "", "", 0, 0⟩], Seat := "" },
                { Bid := [⟨"b3", "9", "", "", 0, 0⟩], Seat := "" }],
    Cur := "" }

/-- Decoding of a bid response on the texts of the examples. -/
def demoUnmarshalBidResponse (body : String) : Except String BidResponse :=
  if body = demoResponseBody then .ok demoBidResponse
  else .error "unexpected end of JSON input"

/-- An instance of `JSON` that agrees with `encoding/json` on the inputs of the
examples. -/
def demoJSON : JSON :=
  { unmarshalExtImpBidder := demoUnmarshalExtImpBidder,
    unmarshalExtImpVideoByte := demoUnmarshalExtImpVideoByte,
    marshalBidRequest := demoMarshalBidRequest,
    unmarshalBidResponse := demoUnmarshalBidResponse }

/-- An adapter with endpoint `http://e`. -/
def demoAdapter : VideoByteAdapter := { endpoint := "http://e" }

/-- Impression `1`: its extension decodes, its banner holds the raw extension `{`. -/
def demoImpBadBanner : Imp :=
  { ID := "1", Banner := some ⟨none, none, "\x7b"⟩, Video := none, Ext := demoExtP }

/-- Impression `2`: its extension decodes, nothing else is set. -/
def demoImpP : Imp :=
  { ID := "2", Banner := none, Video := none, Ext := demoExtP }

/-- Impression `3`: its extension is the empty text. -/
def demoImpNoExt : Imp :=
  { ID := "3", Banner := none, Video := none, Ext := "" }

/-- Impression `4`: publisher `a b`, placement `q`, network `n`. -/
def demoImpAB : Imp :=
  { ID := "4", Banner := none, Video := none, Ext := demoExtAB }

/-- Impression `5`: the bidder part of its extension is a number. -/
def demoImpFive : Imp :=
  { ID := "5", Banner := none, Video := none, Ext := demoExtFive }

/-- A request with the five impressions. -/
def demoRequest : BidRequest :=
  { ID := "r", Imp := [demoImpBadBanner, demoImpP, demoImpNoExt, demoImpAB, demoImpFive],
    Site := none, Ext := "" }

/-- The query string in the order of the calls of `getParams`, values as they
are: `source=pbs&pid=<id>[&placementId=<id>][&nid=<id>]`. -/
def callOrderQuery (impExt : ExtImpVideoByte) : String :=
  "source=pbs&pid=" ++ impExt.PublisherId ++
    (if impExt.PlacementId ≠ "" then "&placementId=" ++ impExt.PlacementId else "") ++
    (if impExt.NetworkId ≠ "" then "&nid=" ++ impExt.NetworkId else "")

/-- The query string with the keys in ascending order and the values escaped:
`[nid=<id>&]pid=<id>[&placementId=<id>]&source=pbs`. -/
def sortedQuery (impExt : ExtImpVideoByte) : String :=
  (if impExt.NetworkId ≠ "" then "nid=" ++ QueryEscape impExt.NetworkId ++ "&" else "") ++
    "pid=" ++ QueryEscape impExt.PublisherId ++
    (if impExt.PlacementId ≠ "" then "&placementId=" ++ QueryEscape impExt.PlacementId else "") ++
    "&source=pbs"

/-- The last impression of the list that has the identifier. -/
def lastImpWithID (imps : List Imp) (id : String) : Option Imp :=
  (imps.filter fun imp => imp.ID = id).getLast?

/-- A request with impression `1` only. -/
def demoRequestOne : BidRequest :=
  { ID := "r", Imp := [demoImpBadBanner], Site := none, Ext := "" }

/-- A request with impressions `1` and `2`. -/
def demoRequestTwo : BidRequest :=
  { ID := "r", Imp := [demoImpBadBanner, demoImpP], Site := none, Ext := "" }

/-- A request with impressions `2` and `4`. -/
def demoRequestUri : BidRequest :=
  { ID := "r", Imp := [demoImpP, demoImpAB], Site := none, Ext := "" }

/-- A request whose impressions repeat identifiers: the last impression `1` has
a banner, the last impression `2` has none. -/
def demoBidsRequest : BidRequest :=
  { ID := "r",
    Imp := [{ ID := "1", Banner := none, Video := none, Ext := demoExtP },
            { ID := "1", Banner := some ⟨none, none, ""⟩, Video := none, Ext := demoExtP },
            { ID := "2", Banner := some ⟨none, none, ""⟩, Video := none, Ext := demoExtP },
            { ID := "2", Banner := none, Video := none, Ext := demoExtP }],
    Site := none, Ext := "" }

/-- An outbound request, as `MakeBids` receives it back. -/
def demoOutbound : RequestData :=
  { Method := MethodPost, Uri := "http://e?pid=p&source=pbs", Body := "", Headers := [] }

/-- A response with the given status code and body. -/
def demoResponse (status : Int) (body : String) : ResponseData :=
  { StatusCode := status, Body := body, Headers := [] }

/-- A request with impressions `1`, `2` and `4`. -/
def demoRequestThree : BidRequest :=
  { ID := "r", Imp := [demoImpBadBanner, demoImpP, demoImpAB], Site := none, Ext := "" }

/-- Decoding of a bid request, as the exchange does it, on the two bodies that
`demoRequestThree` yields: the request with impression `2` alone, and the
request with impression `4` alone. -/
def demoUnmarshalBidRequest (body : String) : Except String BidRequest :=
  if body = "\x7b\"id\":\"r\",\"imp\":[\x7b\"id\":\"2\",\"ext\":" ++ demoExtP ++ "\x7d]\x7d" then
    .ok { ID := "r", Imp := [demoImpP], Site := none, Ext := "" }
  else if body = "\x7b\"id\":\"r\",\"imp\":[\x7b\"id\":\"4\",\"ext\":" ++ demoExtAB ++ "\x7d]\x7d" then
    .ok { ID := "r", Imp := [demoImpAB], Site := none, Ext := "" }
  else .error "unexpected end of JSON input"

/-! ## The loop of MakeRequests -/

/-- Two requests that differ at most in their impression list. -/
def SameButImp (r1 r2 : BidRequest) : Prop :=
  r1.ID = r2.ID ∧ r1.Site = r2.Site ∧ r1.Ext = r2.Ext

theorem sameButImp_single (r1 r2 : BidRequest) (h : SameButImp r1 r2) (imp : Imp) :
    ({ r1 with Imp := [imp] } : BidRequest) = singleImpRequest r2 imp := by
  obtain ⟨h1, h2, h3⟩ := h
  cases r1; cases r2
  simp_all [singleImpRequest]

theorem sameButImp_restore (r1 r2 : BidRequest) (h : SameButImp r1 r2) :
    ({ r1 with Imp := r2.Imp } : BidRequest) = r2 := by
  obtain ⟨h1, h2, h3⟩ := h
  cases r1; cases r2
  simp_all

theorem makeRequestsStep_eq (js : JSON) (a : VideoByteAdapter) (request : BidRequest)
    (st : LoopState) (imp : Imp) (h : SameButImp st.request request) :
    (makeRequestsStep js a st imp).adapterRequests =
        st.adapterRequests ++ (okPart (processImp js a request imp)).toList ∧
      (makeRequestsStep js a st imp).errs =
        st.errs ++ (errPart (processImp js a request imp)).toList ∧
      SameButImp (makeRequestsStep js a st imp).request request := by
  unfold makeRequestsStep processImp
  rw [sameButImp_single st.request request h imp]
  cases parseExt js imp with
  | error err => simp [okPart, errPart, h]
  | ok impExt =>
    dsimp only
    cases js.marshalBidRequest (singleImpRequest request imp) with
    | error err => simp [okPart, errPart, singleImpRequest, SameButImp]
    | ok body => simp [okPart, errPart, singleImpRequest, SameButImp]

theorem foldl_makeRequestsStep (js : JSON) (a : VideoByteAdapter) (request : BidRequest)
    (l : List Imp) (st : LoopState) (h : SameButImp st.request request) :
    (l.foldl (makeRequestsStep js a) st).adapterRequests =
        st.adapterRequests ++ l.filterMap (fun imp => okPart (processImp js a request imp)) ∧
      (l.foldl (makeRequestsStep js a) st).errs =
        st.errs ++ l.filterMap (fun imp => errPart (processImp js a request imp)) ∧
      SameButImp (l.foldl (makeRequestsStep js a) st).request request := by
  induction l generalizing st with
  | nil => simp [h]
  | cons imp rest ih =>
    obtain ⟨h1, h2, h3⟩ := makeRequestsStep_eq js a request st imp h
    obtain ⟨i1, i2, i3⟩ := ih (makeRequestsStep js a st imp) h3
    refine ⟨?_, ?_, i3⟩
    · rw [List.foldl_cons, i1, h1]
      cases hk : okPart (processImp js a request imp) <;> simp [List.filterMap_cons, hk]
    · rw [List.foldl_cons, i2, h2]
      cases hk : errPart (processImp js a request imp) <;> simp [List.filterMap_cons, hk]

/-- The outbound requests are the results of the impressions that yield one, in order. -/
theorem MakeRequests_adapterRequests (js : JSON) (a : VideoByteAdapter) (request : BidRequest) :
    (MakeRequests js a request).adapterRequests =
      request.Imp.filterMap (fun imp => okPart (processImp js a request imp)) := by
  have h := (foldl_makeRequestsStep js a request request.Imp
    { request := request, adapterRequests := [], errs := [] } ⟨rfl, rfl, rfl⟩).1
  simpa [MakeRequests] using h

/-- The errors are the errors of the impressions that yield one, in order. -/
theorem MakeRequests_errs (js : JSON) (a : VideoByteAdapter) (request : BidRequest) :
    (MakeRequests js a request).errs =
      request.Imp.filterMap (fun imp => errPart (processImp js a request imp)) := by
  have h := (foldl_makeRequestsStep js a request request.Imp
    { request := request, adapterRequests := [], errs := [] } ⟨rfl, rfl, rfl⟩).2.1
  simpa [MakeRequests] using h

/-- The request is left as it was. -/
theorem MakeRequests_request (js : JSON) (a : VideoByteAdapter) (request : BidRequest) :
    (MakeRequests js a request).request = request := by
  exact sameButImp_restore _ _ (foldl_makeRequestsStep js a request request.Imp
    { request := request, adapterRequests := [], errs := [] } ⟨rfl, rfl, rfl⟩).2.2

/-! ## Impressions one by one -/

theorem extDecodes_eq_true_iff (js : JSON) (imp : Imp) :
    extDecodes js imp = true ↔ ∃ e, parseExt js imp = .ok e := by
  unfold extDecodes parseExt
  cases js.unmarshalExtImpBidder imp.Ext with
  | error err => simp
  | ok bidderExt =>
    dsimp only
    cases js.unmarshalExtImpVideoByte bidderExt.Bidder <;> simp

theorem parseExt_of_not_extDecodes (js : JSON) (imp : Imp) (h : extDecodes js imp = false) :
    ∃ cause, parseExt js imp = .error (.BadInput ("Ignoring imp id=" ++ imp.ID ++
      ", error while decoding " ++ cause)) := by
  unfold extDecodes at h
  unfold parseExt
  cases hb : js.unmarshalExtImpBidder imp.Ext with
  | error err =>
    have e1 : ", error while decoding extImpBidder, err: " =
        ", error while decoding " ++ "extImpBidder, err: " := by decide
    exact ⟨"extImpBidder, err: " ++ err, by rw [e1]; simp only [String.append_assoc]⟩
  | ok bidderExt =>
    rw [hb] at h
    dsimp only at h ⊢
    cases hv : js.unmarshalExtImpVideoByte bidderExt.Bidder with
    | error err =>
      have e1 : ", error while decoding impExt, err: " =
          ", error while decoding " ++ "impExt, err: " := by decide
      exact ⟨"impExt, err: " ++ err, by rw [e1]; simp only [String.append_assoc]⟩
    | ok e => rw [hv] at h; simp at h

theorem okPart_processImp_isSome (js : JSON) (a : VideoByteAdapter) (request : BidRequest)
    (imp : Imp) :
    (okPart (processImp js a request imp)).isSome = processed js request imp := by
  unfold processed serialises processImp
  cases hd : extDecodes js imp with
  | false =>
    obtain ⟨cause, hc⟩ := parseExt_of_not_extDecodes js imp hd
    simp [hc, okPart]
  | true =>
    obtain ⟨e, he⟩ := (extDecodes_eq_true_iff js imp).1 hd
    rw [he]
    dsimp only
    cases js.marshalBidRequest (singleImpRequest request imp) <;> simp [okPart]

theorem errPart_processImp_isSome (js : JSON) (a : VideoByteAdapter) (request : BidRequest)
    (imp : Imp) :
    (errPart (processImp js a request imp)).isSome = !processed js request imp := by
  rw [← okPart_processImp_isSome js a request imp]
  cases processImp js a request imp <;> simp [okPart, errPart]

theorem okPart_processImp_eq_some (js : JSON) (a : VideoByteAdapter) (request : BidRequest)
    (imp : Imp) (r : RequestData) (h : okPart (processImp js a request imp) = some r) :
    ∃ impExt, parseExt js imp = .ok impExt ∧
      js.marshalBidRequest (singleImpRequest request imp) = .ok r.Body ∧
      r.Method = MethodPost ∧
      r.Uri = a.endpoint ++ "?" ++ Values.Encode (getParams impExt) ∧
      r.Headers = getHeaders request := by
  unfold processImp at h
  cases hp : parseExt js imp with
  | error err => rw [hp] at h; simp [okPart] at h
  | ok impExt =>
    rw [hp] at h
    dsimp only at h
    cases hm : js.marshalBidRequest (singleImpRequest request imp) with
    | error err => rw [hm] at h; simp [okPart] at h
    | ok body =>
      rw [hm] at h
      simp only [okPart, Option.some.injEq] at h
      subst h
      exact ⟨impExt, rfl, rfl, rfl, rfl, rfl⟩

theorem errPart_processImp_eq_some (js : JSON) (a : VideoByteAdapter) (request : BidRequest)
    (imp : Imp) (err : AdapterError) (h : errPart (processImp js a request imp) = some err) :
    if extDecodes js imp = true then
      ∃ m, js.marshalBidRequest (singleImpRequest request imp) = .error m ∧ err = .Json m
    else parseExt js imp = .error err := by
  unfold processImp at h
  cases hp : parseExt js imp with
  | error e =>
    have hd : extDecodes js imp = false := by
      cases hd : extDecodes js imp with
      | false => rfl
      | true =>
        obtain ⟨e1, he1⟩ := (extDecodes_eq_true_iff js imp).1 hd
        rw [hp] at he1; simp at he1
    rw [hp] at h
    simp only [errPart, Option.some.injEq] at h
    simp [hd, h]
  | ok impExt =>
    have hd : extDecodes js imp = true := (extDecodes_eq_true_iff js imp).2 ⟨impExt, hp⟩
    rw [hp] at h
    dsimp only at h
    cases hm : js.marshalBidRequest (singleImpRequest request imp) with
    | error m =>
      rw [hm] at h
      simp only [errPart, Option.some.injEq] at h
      simp [hd, h]
    | ok body => rw [hm] at h; simp [errPart] at h

/-- Filtering and mapping at once pairs the kept elements with their images, in order. -/
theorem forall₂_filter_filterMap {α β : Type} (f : α → Option β) (p : α → Bool)
    (R : α → β → Prop) (hp : ∀ x, (f x).isSome = p x) (hR : ∀ x y, f x = some y → R x y)
    (l : List α) : List.Forall₂ R (l.filter p) (l.filterMap f) := by
  induction l with
  | nil => simp
  | cons x rest ih =>
    cases hx : f x with
    | none =>
      have : p x = false := by rw [← hp x, hx]; rfl
      simpa [List.filter_cons, List.filterMap_cons, hx, this] using ih
    | some y =>
      have : p x = true := by rw [← hp x, hx]; rfl
      simpa [List.filter_cons, List.filterMap_cons, hx, this] using ⟨hR x y hx, ih⟩

theorem length_filter_not {α : Type} (p : α → Bool) (l : List α) :
    (l.filter fun x => !p x).length = l.length - (l.filter p).length := by
  induction l with
  | nil => simp
  | cons x rest ih =>
    have hle : (rest.filter p).length ≤ rest.length := List.length_filter_le p rest
    cases hx : p x
    · simp [List.filter_cons, hx, ih]; omega
    · simp [List.filter_cons, hx, ih]

/-- The same pairing, for a relation known on the elements of the list only. -/
theorem forall₂_filter_filterMap_mem {α β : Type} (f : α → Option β) (p : α → Bool)
    (R : α → β → Prop) (l : List α) (hp : ∀ x, (f x).isSome = p x)
    (hR : ∀ x ∈ l, ∀ y, f x = some y → R x y) :
    List.Forall₂ R (l.filter p) (l.filterMap f) := by
  induction l with
  | nil => simp
  | cons x rest ih =>
    have ih1 := ih fun z hz y hy => hR z (List.mem_cons_of_mem x hz) y hy
    cases hx : f x with
    | none =>
      have : p x = false := by rw [← hp x, hx]; rfl
      simpa [List.filter_cons, List.filterMap_cons, hx, this] using ih1
    | some y =>
      have : p x = true := by rw [← hp x, hx]; rfl
      simpa [List.filter_cons, List.filterMap_cons, hx, this] using
        ⟨hR x (List.mem_cons_self x rest) y hx, ih1⟩

theorem map_ID_eq_singleton (imps : List Imp) (id : String)
    (h : imps.map (fun i => i.ID) = [id]) : ∃ i, imps = [i] ∧ i.ID = id := by
  cases imps with
  | nil => simp at h
  | cons i rest =>
    cases rest with
    | nil => exact ⟨i, rfl, by simpa using h⟩
    | cons j more => simp at h

/-- The outbound requests pair off, in order, with the processed impressions. -/
theorem MakeRequests_requests_forall₂ (js : JSON) (a : VideoByteAdapter) (request : BidRequest) :
    List.Forall₂
      (fun imp r => ∃ impExt, parseExt js imp = .ok impExt ∧
        js.marshalBidRequest (singleImpRequest request imp) = .ok r.Body ∧
        r.Method = MethodPost ∧
        r.Uri = a.endpoint ++ "?" ++ Values.Encode (getParams impExt) ∧
        r.Headers = getHeaders request)
      (request.Imp.filter (processed js request))
      (MakeRequests js a request).adapterRequests := by
  rw [MakeRequests_adapterRequests]
  exact forall₂_filter_filterMap _ _ _ (okPart_processImp_isSome js a request)
    (okPart_processImp_eq_some js a request) request.Imp

/-- The errors pair off, in order, with the impressions that are not processed. -/
theorem MakeRequests_errs_forall₂ (js : JSON) (a : VideoByteAdapter) (request : BidRequest) :
    List.Forall₂
      (fun imp err =>
        if extDecodes js imp = true then
          ∃ m, js.marshalBidRequest (singleImpRequest request imp) = .error m ∧ err = .Json m
        else parseExt js imp = .error err)
      (request.Imp.filter fun imp => !processed js request imp)
      (MakeRequests js a request).errs := by
  rw [MakeRequests_errs]
  exact forall₂_filter_filterMap _ _ _ (errPart_processImp_isSome js a request)
    (errPart_processImp_eq_some js a request) request.Imp

/-! ## Query parameters -/

theorem getParams_eq (impExt : ExtImpVideoByte) :
    getParams impExt =
      [("source", ["pbs"]), ("pid", [impExt.PublisherId])] ++
        (if impExt.PlacementId ≠ "" then [("placementId", [impExt.PlacementId])] else []) ++
        (if impExt.NetworkId ≠ "" then [("nid", [impExt.NetworkId])] else []) := by
  by_cases h1 : impExt.PlacementId = "" <;> by_cases h2 : impExt.NetworkId = "" <;>
    simp [getParams, Values.Add, Values.get, mapStore, mapLookup, h1, h2]

theorem stringLess_keys :
    stringLess "pid" "source" = true ∧ stringLess "pid" "placementId" = true ∧
      stringLess "placementId" "source" = true ∧ stringLess "nid" "pid" = true ∧
      stringLess "nid" "placementId" = true ∧ stringLess "nid" "source" = true ∧
      stringLess "source" "pid" = false ∧ stringLess "placementId" "pid" = false ∧
      stringLess "source" "placementId" = false ∧ stringLess "pid" "nid" = false ∧
      stringLess "placementId" "nid" = false ∧ stringLess "source" "nid" = false := by
  decide

theorem QueryEscape_keys :
    QueryEscape "pid" = "pid" ∧ QueryEscape "source" = "source" ∧
      QueryEscape "placementId" = "placementId" ∧ QueryEscape "nid" = "nid" ∧
      QueryEscape "pbs" = "pbs" := by
  decide

theorem literal_lengths :
    "=".length = 1 ∧ "&".length = 1 ∧ "pid".length = 3 ∧ "nid".length = 3 ∧
      "source".length = 6 ∧ "placementId".length = 11 ∧ "pid=".length = 4 ∧
      "nid=".length = 4 ∧ "source=".length = 7 ∧ "placementId=".length = 12 ∧
      "pbs".length = 3 := by
  decide

theorem Encode_getParams (impExt : ExtImpVideoByte) :
    Values.Encode (getParams impExt) = sortedQuery impExt := by
  rw [getParams_eq]
  by_cases h1 : impExt.PlacementId = "" <;> by_cases h2 : impExt.NetworkId = "" <;>
    simp [h1, h2, sortedQuery, Values.Encode, mapKeys, sortStrings, insertString,
      stringLess_keys, QueryEscape_keys, Values.get, mapLookup, encodePair,
      String.length_append, literal_lengths, String.append_assoc]

/-! ## Headers -/

theorem CanonicalMIMEHeaderKey_keys :
    CanonicalMIMEHeaderKey "Content-Type" = "Content-Type" ∧
      CanonicalMIMEHeaderKey "Accept" = "Accept" ∧
      CanonicalMIMEHeaderKey "Origin" = "Origin" ∧
      CanonicalMIMEHeaderKey "Referer" = "Referer" := by
  decide

theorem getHeaders_eq (request : BidRequest) :
    getHeaders request =
      [("Content-Type", ["application/json;charset=utf-8"]), ("Accept", ["application/json"])] ++
        (match request.Site with
          | some site =>
            (if site.Domain ≠ "" then [("Origin", [site.Domain])] else []) ++
              (if site.Ref ≠ "" then [("Referer", [site.Ref])] else [])
          | none => []) := by
  unfold getHeaders
  cases request.Site with
  | none =>
    simp [Header.Add, Header.values, CanonicalMIMEHeaderKey_keys, mapStore, mapLookup]
  | some site =>
    by_cases h1 : site.Domain = "" <;> by_cases h2 : site.Ref = "" <;>
      simp [Header.Add, Header.Set, Header.values, CanonicalMIMEHeaderKey_keys, mapStore,
        mapLookup, h1, h2]

/-! ## The lookup and the bids of MakeBids -/

theorem mapLookup_mapStore {α : Type} (m : List (String × α)) (k k1 : String) (v : α) :
    mapLookup (mapStore m k v) k1 = if k = k1 then some v else mapLookup m k1 := by
  induction m with
  | nil => simp [mapStore, mapLookup]
  | cons p rest ih =>
    obtain ⟨k0, v0⟩ := p
    by_cases h0 : k0 = k
    · subst h0
      by_cases h1 : k0 = k1 <;> simp [mapStore, mapLookup, h1]
    · by_cases h1 : k0 = k1
      · subst h1
        simp [mapStore, mapLookup, h0, Ne.symm h0]
      · simp [mapStore, mapLookup, h0, h1, ih]

theorem mapLookup_foldl_mapStore (imps : List Imp) (m : List (String × Imp)) (id : String) :
    mapLookup (imps.foldl (fun m imp => mapStore m imp.ID imp) m) id =
      (lastImpWithID imps id).orElse fun _ => mapLookup m id := by
  induction imps using List.reverseRecOn with
  | nil => simp [lastImpWithID]
  | append_singleton rest x ih =>
    rw [List.foldl_append]
    simp only [List.foldl_cons, List.foldl_nil]
    rw [mapLookup_mapStore, ih]
    unfold lastImpWithID
    by_cases hx : x.ID = id
    · simp [List.filter_append, hx]
    · simp [List.filter_append, hx]

theorem mapLookup_buildImpIdToImp (imps : List Imp) (id : String) :
    mapLookup (buildImpIdToImp imps) id = lastImpWithID imps id := by
  unfold buildImpIdToImp
  rw [mapLookup_foldl_mapStore]
  cases lastImpWithID imps id <;> simp [mapLookup]

theorem foldl_bids (m : List (String × Imp)) (bids : List Bid) (resp : BidderResponse) :
    bids.foldl (fun resp bid =>
        { resp with Bids := resp.Bids ++
            [{ Bid := bid, BidType := getMediaTypeForImp (mapLookup m bid.ImpID) }] }) resp =
      { resp with Bids := resp.Bids ++ bids.map fun bid =>
          { Bid := bid, BidType := getMediaTypeForImp (mapLookup m bid.ImpID) } } := by
  induction bids generalizing resp with
  | nil => simp
  | cons b rest ih => simp [ih]

theorem collectBids_eq (m : List (String × Imp)) (seatBids : List SeatBid)
    (resp : BidderResponse) :
    collectBids m seatBids resp =
      { resp with Bids := resp.Bids ++ (seatBids.flatMap fun sb => sb.Bid).map fun bid =>
          { Bid := bid, BidType := getMediaTypeForImp (mapLookup m bid.ImpID) } } := by
  unfold collectBids
  induction seatBids generalizing resp with
  | nil => simp
  | cons sb rest ih =>
    rw [List.foldl_cons, foldl_bids, ih]
    simp [List.flatMap_cons]

theorem MakeBids_ok (js : JSON) (currency : String) (internalRequest : BidRequest)
    (externalRequest : RequestData) (response : ResponseData) (ortbResponse : BidResponse)
    (hs : response.StatusCode = StatusOK)
    (hd : js.unmarshalBidResponse response.Body = .ok ortbResponse) :
    MakeBids js currency internalRequest externalRequest response =
      (some { Currency := currency,
              Bids := (ortbResponse.SeatBid.flatMap fun sb => sb.Bid).map fun bid =>
                { Bid := bid,
                  BidType := getMediaTypeForImp (lastImpWithID internalRequest.Imp bid.ImpID) } },
        []) := by
  unfold MakeBids
  simp [hs, hd, StatusOK, StatusNoContent, StatusBadRequest, collectBids_eq,
    NewBidderResponseWithBidsCapacity, mapLookup_buildImpIdToImp]

/-! ## Properties of MakeRequests -/

/-- C1, as stated, fails: the single impression of `demoRequestOne` has an
extension that decodes (N = 1, M = 1), but its single-impression request does
not serialise, so `MakeRequests` returns no outbound request and one error. -/
theorem MakeRequests_counts_counterexample :
    demoRequestOne.Imp.length = 1 ∧
      (demoRequestOne.Imp.filter (extDecodes demoJSON)).length = 1 ∧
      (MakeRequests demoJSON demoAdapter demoRequestOne).adapterRequests.length = 0 ∧
      (MakeRequests demoJSON demoAdapter demoRequestOne).errs.length = 1 := by
  decide

/-- C1 (amended): for every bid request with N impressions of which M are
processed (the extension decodes, both wrapper and adapter-specific part, and
the single-impression request serialises), `MakeRequests` returns exactly M
outbound requests and exactly N - M errors; the counts range over all the
impressions, so a failing impression does not stop the ones after it. -/
theorem MakeRequests_counts (js : JSON) (a : VideoByteAdapter) (request : BidRequest) :
    (MakeRequests js a request).adapterRequests.length =
        (request.Imp.filter (processed js request)).length ∧
      (MakeRequests js a request).errs.length =
        request.Imp.length - (request.Imp.filter (processed js request)).length := by
  refine ⟨(MakeRequests_requests_forall₂ js a request).length_eq.symm, ?_⟩
  rw [← (MakeRequests_errs_forall₂ js a request).length_eq, length_filter_not]

/-- C2: after `MakeRequests` returns, the request is the request it was given:
the same impression list, and every other field unchanged, whatever the
impressions did. -/
theorem MakeRequests_restores_request (js : JSON) (a : VideoByteAdapter)
    (request : BidRequest) :
    (MakeRequests js a request).request = request ∧
      (MakeRequests js a request).request.Imp = request.Imp ∧
      (MakeRequests js a request).request.Imp.length = request.Imp.length := by
  rw [MakeRequests_request]
  exact ⟨rfl, rfl, rfl⟩

/-- C3, as stated, fails: in `demoRequestTwo` both extensions decode, so the
first impression whose extension decodes is impression `1`; its request does
not serialise, and the first (and only) outbound body is the serialisation of
the request with impression `2`. -/
theorem MakeRequests_body_counterexample :
    demoRequestTwo.Imp.filter (extDecodes demoJSON) = [demoImpBadBanner, demoImpP] ∧
      (MakeRequests demoJSON demoAdapter demoRequestTwo).adapterRequests.map
          (fun r => Except.ok r.Body) =
        [demoJSON.marshalBidRequest { demoRequestTwo with Imp := [demoImpP] }] ∧
      demoJSON.marshalBidRequest { demoRequestTwo with Imp := [demoImpBadBanner] } =
        .error "json: error calling MarshalJSON for type json.RawMessage: unexpected end of JSON input" := by
  refine ⟨by decide, rfl, rfl⟩

/-- C3 (amended): the outbound requests pair off, in order, with the processed
impressions (extension decoded and single-impression request serialised): the
k-th outbound request has as body the serialisation of the original request
with its impression list replaced by the single-element list holding the k-th
processed impression, all other request fields unchanged. So each body carries
exactly one impression, with the identifier of the impression that produced
it: whenever decoding the serialisation of a single-impression request of the
request gives back the identifier of its impression, decoding the k-th body
gives a request with exactly one impression, and its identifier is the one of
the k-th processed impression. -/
theorem MakeRequests_body (js : JSON) (a : VideoByteAdapter) (request : BidRequest)
    (decode : String → Except String BidRequest) :
    List.Forall₂
        (fun imp r => extDecodes js imp = true ∧
          js.marshalBidRequest { request with Imp := [imp] } = .ok r.Body)
        (request.Imp.filter (processed js request))
        (MakeRequests js a request).adapterRequests ∧
      ((∀ imp ∈ request.Imp, ∀ body,
          js.marshalBidRequest { request with Imp := [imp] } = .ok body →
          ∃ decoded, decode body = .ok decoded ∧
            decoded.Imp.map (fun i => i.ID) = [imp.ID]) →
        List.Forall₂
          (fun imp r => ∃ decoded i, decode r.Body = .ok decoded ∧
            decoded.Imp = [i] ∧ i.ID = imp.ID)
          (request.Imp.filter (processed js request))
          (MakeRequests js a request).adapterRequests) := by
  refine ⟨(MakeRequests_requests_forall₂ js a request).imp ?_, ?_⟩
  · rintro imp r ⟨impExt, h1, h2, -⟩
    exact ⟨(extDecodes_eq_true_iff js imp).2 ⟨impExt, h1⟩, h2⟩
  · intro hdec
    rw [MakeRequests_adapterRequests]
    refine forall₂_filter_filterMap_mem _ _ _ request.Imp
      (okPart_processImp_isSome js a request) ?_
    intro imp himp r hr
    obtain ⟨impExt, -, h2, -⟩ := okPart_processImp_eq_some js a request imp r hr
    obtain ⟨decoded, hd, hids⟩ := hdec imp himp r.Body h2
    obtain ⟨i, hi, hid⟩ := map_ID_eq_singleton decoded.Imp imp.ID hids
    exact ⟨decoded, i, hd, hi, hid⟩

/-- C3 at `demoRequestThree`: impression `1` is not processed; the two bodies
are those of impressions `2` and `4`, each the serialisation of the request
with that impression alone, and each decodes to a request with exactly one
impression, of identifier `2` and `4`. -/
theorem MakeRequests_body_witness :
    (∀ imp ∈ demoRequestThree.Imp, ∀ body,
        demoJSON.marshalBidRequest { demoRequestThree with Imp := [imp] } = .ok body →
        ∃ decoded, demoUnmarshalBidRequest body = .ok decoded ∧
          decoded.Imp.map (fun i => i.ID) = [imp.ID]) ∧
      List.Forall₂
        (fun imp r => extDecodes demoJSON imp = true ∧
          demoJSON.marshalBidRequest { demoRequestThree with Imp := [imp] } = .ok r.Body)
        [demoImpP, demoImpAB]
        (MakeRequests demoJSON demoAdapter demoRequestThree).adapterRequests ∧
      List.Forall₂
        (fun imp r => ∃ decoded i, demoUnmarshalBidRequest r.Body = .ok decoded ∧
          decoded.Imp = [i] ∧ i.ID = imp.ID)
        [demoImpP, demoImpAB]
        (MakeRequests demoJSON demoAdapter demoRequestThree).adapterRequests ∧
      (MakeRequests demoJSON demoAdapter demoRequestThree).adapterRequests.map
          (fun r => (okPart (demoUnmarshalBidRequest r.Body)).map
            fun decoded => decoded.Imp.map fun i => i.ID) =
        [some ["2"], some ["4"]] :=
  have hdec : ∀ imp ∈ demoRequestThree.Imp, ∀ body,
      demoJSON.marshalBidRequest { demoRequestThree with Imp := [imp] } = .ok body →
      ∃ decoded, demoUnmarshalBidRequest body = .ok decoded ∧
        decoded.Imp.map (fun i => i.ID) = [imp.ID] := by
    intro imp himp body hb
    simp only [demoRequestThree, List.mem_cons, List.mem_singleton, List.not_mem_nil,
      or_false] at himp
    rcases himp with rfl | rfl | rfl
    · change Except.error _ = Except.ok body at hb
      cases hb
    · cases hb
      exact ⟨_, rfl, rfl⟩
    · cases hb
      exact ⟨_, rfl, rfl⟩
  ⟨hdec,
    (MakeRequests_body demoJSON demoAdapter demoRequestThree demoUnmarshalBidRequest).1,
    (MakeRequests_body demoJSON demoAdapter demoRequestThree demoUnmarshalBidRequest).2 hdec,
    by decide⟩

/-- C10: an impression whose extension fails to decode (wrapper or
adapter-specific part) makes `parseExt` return a `BadInput` error whose message
holds the impression identifier; the errors of `MakeRequests` pair off, in
request order, with the impressions that are not processed, the error of an
impression whose extension fails being the one of `parseExt`; and the outbound
requests pair off with impressions whose extension decodes, so a failing
impression yields none. -/
theorem MakeRequests_reports_failures (js : JSON) (a : VideoByteAdapter)
    (request : BidRequest) :
    (∀ imp, extDecodes js imp = false →
        ∃ cause, parseExt js imp = .error (.BadInput ("Ignoring imp id=" ++ imp.ID ++
          ", error while decoding " ++ cause))) ∧
      List.Forall₂
        (fun imp err => extDecodes js imp = false → parseExt js imp = .error err)
        (request.Imp.filter fun imp => !processed js request imp)
        (MakeRequests js a request).errs ∧
      List.Forall₂ (fun imp _ => extDecodes js imp = true)
        (request.Imp.filter (processed js request))
        (MakeRequests js a request).adapterRequests := by
  refine ⟨parseExt_of_not_extDecodes js, ?_, ?_⟩
  · refine (MakeRequests_errs_forall₂ js a request).imp ?_
    intro imp err h hd
    simpa [hd] using h
  · refine (MakeRequests_requests_forall₂ js a request).imp ?_
    rintro imp r ⟨impExt, h1, -⟩
    exact (extDecodes_eq_true_iff js imp).2 ⟨impExt, h1⟩

/-- C10 at `demoRequest`: impression `3` has no extension, and the errors are
those of impressions `1`, `3` and `5`, in this order. -/
theorem MakeRequests_reports_failures_witness :
    (∃ cause, parseExt demoJSON demoImpNoExt = .error (.BadInput ("Ignoring imp id=" ++
        demoImpNoExt.ID ++ ", error while decoding " ++ cause))) ∧
      List.Forall₂
        (fun imp err => extDecodes demoJSON imp = false → parseExt demoJSON imp = .error err)
        [demoImpBadBanner, demoImpNoExt, demoImpFive]
        (MakeRequests demoJSON demoAdapter demoRequest).errs :=
  ⟨(MakeRequests_reports_failures demoJSON demoAdapter demoRequest).1 demoImpNoExt (by decide),
    (MakeRequests_reports_failures demoJSON demoAdapter demoRequest).2.1⟩

/-! ## Properties of the query parameters and the URI -/

/-- C4: the parameters built by `getParams` hold `source` with the single value
`pbs` and `pid` with the single value of the publisher identifier (also when it
is empty); they hold `placementId` exactly when the placement identifier is
non-empty, and `nid` exactly when the network identifier is non-empty, each with
the identifier as single value; and they hold no other key. -/
theorem getParams_spec (impExt : ExtImpVideoByte) :
    Values.get (getParams impExt) "source" = ["pbs"] ∧
      Values.get (getParams impExt) "pid" = [impExt.PublisherId] ∧
      ("placementId" ∈ mapKeys (getParams impExt) ↔ impExt.PlacementId ≠ "") ∧
      (impExt.PlacementId ≠ "" →
        Values.get (getParams impExt) "placementId" = [impExt.PlacementId]) ∧
      ("nid" ∈ mapKeys (getParams impExt) ↔ impExt.NetworkId ≠ "") ∧
      (impExt.NetworkId ≠ "" → Values.get (getParams impExt) "nid" = [impExt.NetworkId]) ∧
      (∀ k ∈ mapKeys (getParams impExt),
        k = "source" ∨ k = "pid" ∨ k = "placementId" ∨ k = "nid") := by
  rw [getParams_eq]
  by_cases h1 : impExt.PlacementId = "" <;> by_cases h2 : impExt.NetworkId = "" <;>
    simp [Values.get, mapLookup, mapKeys, h1, h2]

/-- C4 at the extension with publisher `a b`, placement `q`, network `n`. -/
theorem getParams_spec_witness :
    Values.get (getParams ⟨"a b", "q", "n"⟩) "placementId" = ["q"] ∧
      Values.get (getParams ⟨"a b", "q", "n"⟩) "nid" = ["n"] :=
  ⟨(getParams_spec ⟨"a b", "q", "n"⟩).2.2.2.1 (by decide),
    (getParams_spec ⟨"a b", "q", "n"⟩).2.2.2.2.2.1 (by decide)⟩

/-- C5, as stated, fails: the two impressions of `demoRequestUri` are processed,
with publisher `p`, and with publisher `a b`, placement `q`, network `n`; their
URIs have the parameters in ascending key order and the space escaped, not
`?source=pbs&pid=...` followed by the others. -/
theorem MakeRequests_uri_counterexample :
    (MakeRequests demoJSON demoAdapter demoRequestUri).adapterRequests.map (fun r => r.Uri) =
        ["http://e?pid=p&source=pbs", "http://e?nid=n&pid=a+b&placementId=q&source=pbs"] ∧
      demoRequestUri.Imp.map (fun imp => okPart (parseExt demoJSON imp)) =
        [some ⟨"p", "", ""⟩, some ⟨"a b", "q", "n"⟩] ∧
      demoAdapter.endpoint ++ "?" ++ callOrderQuery ⟨"p", "", ""⟩ =
        "http://e?source=pbs&pid=p" ∧
      demoAdapter.endpoint ++ "?" ++ callOrderQuery ⟨"a b", "q", "n"⟩ =
        "http://e?source=pbs&pid=a b&placementId=q&nid=n" := by
  decide

/-- C5 (amended): the outbound requests pair off, in order, with the processed
impressions; the URI of each is the configured endpoint followed by `?`, then
`nid=<networkId>&` when the network identifier is non-empty, then
`pid=<publisherId>`, then `&placementId=<placementId>` when the placement
identifier is non-empty, then `&source=pbs` (ascending key order), every
identifier query-escaped; and the request method is POST. -/
theorem MakeRequests_uri (js : JSON) (a : VideoByteAdapter) (request : BidRequest) :
    List.Forall₂
      (fun imp r => ∃ impExt, parseExt js imp = .ok impExt ∧
        r.Uri = a.endpoint ++ "?" ++
          ((if impExt.NetworkId ≠ "" then "nid=" ++ QueryEscape impExt.NetworkId ++ "&" else "") ++
            "pid=" ++ QueryEscape impExt.PublisherId ++
            (if impExt.PlacementId ≠ "" then
              "&placementId=" ++ QueryEscape impExt.PlacementId else "") ++
            "&source=pbs") ∧
        r.Method = "POST")
      (request.Imp.filter (processed js request))
      (MakeRequests js a request).adapterRequests := by
  refine (MakeRequests_requests_forall₂ js a request).imp ?_
  rintro imp r ⟨impExt, h1, -, h3, h4, -⟩
  refine ⟨impExt, h1, ?_, h3⟩
  rw [h4, Encode_getParams]
  rfl

/-! ## Properties of the headers -/

/-- C6: the headers built by `getHeaders` hold `Content-Type` with the single
value `application/json;charset=utf-8` and `Accept` with the single value
`application/json`; they hold `Origin` exactly when the request has a site with
a non-empty domain, with the domain as value; they hold `Referer` exactly when
the request has a site with a non-empty referrer, with the referrer as single
value; and they hold no other header. -/
theorem getHeaders_spec (request : BidRequest) :
    Header.values (getHeaders request) "Content-Type" = ["application/json;charset=utf-8"] ∧
      Header.values (getHeaders request) "Accept" = ["application/json"] ∧
      ("Origin" ∈ mapKeys (getHeaders request) ↔
        ∃ site, request.Site = some site ∧ site.Domain ≠ "") ∧
      (∀ site, request.Site = some site → site.Domain ≠ "" →
        Header.values (getHeaders request) "Origin" = [site.Domain]) ∧
      ("Referer" ∈ mapKeys (getHeaders request) ↔
        ∃ site, request.Site = some site ∧ site.Ref ≠ "") ∧
      (∀ site, request.Site = some site → site.Ref ≠ "" →
        Header.values (getHeaders request) "Referer" = [site.Ref]) ∧
      (∀ k ∈ mapKeys (getHeaders request),
        k = "Content-Type" ∨ k = "Accept" ∨ k = "Origin" ∨ k = "Referer") := by
  rw [getHeaders_eq]
  cases request.Site with
  | none => simp [Header.values, mapLookup, mapKeys]
  | some site =>
    by_cases h1 : site.Domain = "" <;> by_cases h2 : site.Ref = "" <;>
      simp [Header.values, mapLookup, mapKeys, h1, h2]

/-- C6 at a request whose site has domain `d.example` and referrer `http://r`. -/
theorem getHeaders_spec_witness :
    Header.values (getHeaders ⟨"r", [], some ⟨"d.example", "http://r", ""⟩, ""⟩) "Origin" =
        ["d.example"] ∧
      Header.values (getHeaders ⟨"r", [], some ⟨"d.example", "http://r", ""⟩, ""⟩) "Referer" =
        ["http://r"] :=
  ⟨(getHeaders_spec ⟨"r", [], some ⟨"d.example", "http://r", ""⟩, ""⟩).2.2.2.1
      ⟨"d.example", "http://r", ""⟩ rfl (by decide),
    (getHeaders_spec ⟨"r", [], some ⟨"d.example", "http://r", ""⟩, ""⟩).2.2.2.2.2.1
      ⟨"d.example", "http://r", ""⟩ rfl (by decide)⟩

/-! ## Properties of MakeBids -/

/-- C7: `MakeBids` classifies by status code. Status 204: no response and no
error. Status 400: no response and the one `BadInput` error citing the status.
Any other status different from 200: no response and the one
`BadServerResponse` error citing the status. Status 200 with a body that does
not decode: no response and the one `BadServerResponse` error with the fixed
message. Status 200 with a body that decodes: a response and no error. -/
theorem MakeBids_status (js : JSON) (currency : String) (internalRequest : BidRequest)
    (externalRequest : RequestData) (response : ResponseData) :
    (response.StatusCode = 204 →
        MakeBids js currency internalRequest externalRequest response = (none, [])) ∧
      (response.StatusCode = 400 →
        MakeBids js currency internalRequest externalRequest response =
          (none, [.BadInput
            "Bad user input: HTTP status 400. Run with request.debug = 1 for more info"])) ∧
      (response.StatusCode ≠ 204 → response.StatusCode ≠ 400 → response.StatusCode ≠ 200 →
        MakeBids js currency internalRequest externalRequest response =
          (none, [.BadServerResponse ("Unexpected status code: " ++
            formatInt response.StatusCode ++ ". Run with request.debug = 1 for more info")])) ∧
      (response.StatusCode = 200 → ∀ err, js.unmarshalBidResponse response.Body = .error err →
        MakeBids js currency internalRequest externalRequest response =
          (none, [.BadServerResponse "Bad Server Response"])) ∧
      (response.StatusCode = 200 → ∀ r, js.unmarshalBidResponse response.Body = .ok r →
        ∃ bidderResponse, MakeBids js currency internalRequest externalRequest response =
          (some bidderResponse, [])) := by
  refine ⟨?_, ?_, ?_, ?_, ?_⟩
  · intro h
    simp [MakeBids, h, StatusNoContent]
  · intro h
    have e : formatInt 400 = "400" := by decide
    simp [MakeBids, h, StatusNoContent, StatusBadRequest, e]
  · intro h1 h2 h3
    simp [MakeBids, h1, h2, h3, StatusNoContent, StatusBadRequest, StatusOK]
  · intro h err he
    simp [MakeBids, h, he, StatusNoContent, StatusBadRequest, StatusOK]
  · intro h r hr
    exact ⟨_, MakeBids_ok js currency internalRequest externalRequest response r h hr⟩

/-- C7 at the five kinds of response: status 204, 400, 500, 200 with an empty
body, and 200 with `demoResponseBody`. -/
theorem MakeBids_status_witness :
    MakeBids demoJSON "USD" demoBidsRequest demoOutbound (demoResponse 204 "") = (none, []) ∧
      MakeBids demoJSON "USD" demoBidsRequest demoOutbound (demoResponse 400 "") =
        (none, [.BadInput
          "Bad user input: HTTP status 400. Run with request.debug = 1 for more info"]) ∧
      MakeBids demoJSON "USD" demoBidsRequest demoOutbound (demoResponse 500 "") =
        (none, [.BadServerResponse
          "Unexpected status code: 500. Run with request.debug = 1 for more info"]) ∧
      MakeBids demoJSON "USD" demoBidsRequest demoOutbound (demoResponse 200 "") =
        (none, [.BadServerResponse "Bad Server Response"]) ∧
      (∃ bidderResponse,
        MakeBids demoJSON "USD" demoBidsRequest demoOutbound (demoResponse 200 demoResponseBody) =
          (some bidderResponse, [])) :=
  ⟨(MakeBids_status demoJSON "USD" demoBidsRequest demoOutbound (demoResponse 204 "")).1 rfl,
    (MakeBids_status demoJSON "USD" demoBidsRequest demoOutbound (demoResponse 400 "")).2.1 rfl,
    (MakeBids_status demoJSON "USD" demoBidsRequest demoOutbound (demoResponse 500 "")).2.2.1
      (by decide) (by decide) (by decide),
    (MakeBids_status demoJSON "USD" demoBidsRequest demoOutbound (demoResponse 200 "")).2.2.2.1
      rfl "unexpected end of JSON input" rfl,
    (MakeBids_status demoJSON "USD" demoBidsRequest demoOutbound
      (demoResponse 200 demoResponseBody)).2.2.2.2 rfl demoBidResponse rfl⟩

/-- C8: for a status-200 response that decodes, every bid returned by
`MakeBids` is typed banner exactly when the original request has an impression
with the impression identifier of the bid and the last such impression has a
banner descriptor; in every other case the bid is typed video. -/
theorem MakeBids_bidTypes (js : JSON) (currency : String) (internalRequest : BidRequest)
    (externalRequest : RequestData) (response : ResponseData) (ortbResponse : BidResponse)
    (hs : response.StatusCode = 200)
    (hd : js.unmarshalBidResponse response.Body = .ok ortbResponse) :
    ∃ bidderResponse,
      MakeBids js currency internalRequest externalRequest response =
        (some bidderResponse, []) ∧
      ∀ typedBid ∈ bidderResponse.Bids,
        (typedBid.BidType = .BidTypeBanner ↔
          ∃ imp, (internalRequest.Imp.filter fun i => i.ID = typedBid.Bid.ImpID).getLast? =
            some imp ∧ imp.Banner ≠ none) ∧
        (typedBid.BidType ≠ .BidTypeBanner → typedBid.BidType = .BidTypeVideo) := by
  refine ⟨_, MakeBids_ok js currency internalRequest externalRequest response ortbResponse hs hd,
    ?_⟩
  intro typedBid hmem
  simp only [List.mem_map] at hmem
  obtain ⟨bid, -, rfl⟩ := hmem
  dsimp only
  unfold lastImpWithID getMediaTypeForImp
  cases (internalRequest.Imp.filter fun i => i.ID = bid.ImpID).getLast? with
  | none => simp
  | some imp =>
    cases hb : imp.Banner <;> simp [hb]

/-- C8 at `demoBidsRequest` and `demoResponseBody`: bid `b1` (impression `1`,
whose last occurrence has a banner) is typed banner, bid `b2` (impression `2`,
whose last occurrence has none) and bid `b3` (impression `9`, absent) video. -/
theorem MakeBids_bidTypes_witness :
    (MakeBids demoJSON "USD" demoBidsRequest demoOutbound
        (demoResponse 200 demoResponseBody)).1.map
        (fun r => r.Bids.map fun t => (t.Bid.ID, t.BidType)) =
        some [("b1", .BidTypeBanner), ("b2", .BidTypeVideo), ("b3", .BidTypeVideo)] ∧
      ∃ bidderResponse,
        MakeBids demoJSON "USD" demoBidsRequest demoOutbound
            (demoResponse 200 demoResponseBody) = (some bidderResponse, []) ∧
        ∀ typedBid ∈ bidderResponse.Bids,
          (typedBid.BidType = .BidTypeBanner ↔
            ∃ imp, (demoBidsRequest.Imp.filter fun i => i.ID = typedBid.Bid.ImpID).getLast? =
              some imp ∧ imp.Banner ≠ none) ∧
          (typedBid.BidType ≠ .BidTypeBanner → typedBid.BidType = .BidTypeVideo) :=
  ⟨by decide,
    MakeBids_bidTypes demoJSON "USD" demoBidsRequest demoOutbound
      (demoResponse 200 demoResponseBody) demoBidResponse rfl rfl⟩

/-- C9: for a status-200 response that decodes, the bids returned by `MakeBids`
are the bids of the decoded response, one typed bid per source bid with the same
bid data, in the order of the seat-bid groups and, within a group, of its bids:
nothing is dropped, duplicated or reordered. -/
theorem MakeBids_bids (js : JSON) (currency : String) (internalRequest : BidRequest)
    (externalRequest : RequestData) (response : ResponseData) (ortbResponse : BidResponse)
    (hs : response.StatusCode = 200)
    (hd : js.unmarshalBidResponse response.Body = .ok ortbResponse) :
    ∃ bidderResponse,
      MakeBids js currency internalRequest externalRequest response =
        (some bidderResponse, []) ∧
      bidderResponse.Bids.map (fun typedBid => typedBid.Bid) =
        ortbResponse.SeatBid.flatMap fun seatBid => seatBid.Bid := by
  refine ⟨_, MakeBids_ok js currency internalRequest externalRequest response ortbResponse hs hd,
    ?_⟩
  simp [List.map_map, Function.comp_def]

/-- C9 at `demoResponseBody`: the three bids come back in the order `b1`, `b2`,
`b3`. -/
theorem MakeBids_bids_witness :
    ∃ bidderResponse,
      MakeBids demoJSON "USD" demoBidsRequest demoOutbound
          (demoResponse 200 demoResponseBody) = (some bidderResponse, []) ∧
      bidderResponse.Bids.map (fun typedBid => typedBid.Bid) =
        [⟨"b1", "1", "", "", 0, 0⟩, ⟨"b2", "2", "", "", 0, 0⟩, ⟨"b3", "9", "", "", 0, 0⟩] :=
  MakeBids_bids demoJSON "USD" demoBidsRequest demoOutbound
    (demoResponse 200 demoResponseBody) demoBidResponse rfl rfl

end VideoByte
